import Mathlib

/-!
Verification of the TA-da real-time transcript ingestion relay.

This file gives a shallow embedding, in Lean 4, of the relay's core data
model and operations as implemented in `zoom-RTMS/index.js` and
`zoom-RTMS-SDK/src/rtms/websocketHandler.ts` (the two implementations are
line-for-line equivalent in the embedded parts), and proves or refutes the
behavioural properties stated for them.

Modelling notes.  The JavaScript runtime is single-threaded and
event-driven: every handler runs to completion up to its next `await`, so
"concurrency" is interleaving of synchronous steps.  We therefore model
each operation as a pure state transformer and model interleavings as
traces (lists) of operations.  JS `Map` objects become functions
`String → Option β`; JS numbers used as counters become `Nat`; JS numbers
used as media timestamps become `ℚ`; JS `x || y` (falsy-or, where the
empty string is falsy) and `x ?? y` (nullish-or, where the empty string is
kept) are embedded as distinct operations on `Option String`.  Network
side effects (the Elasticsearch bulk call, WebSocket sends) are recorded
in ghost fields of the state so that theorems can speak about them.
-/

namespace TAda

/-- A JS `Map` with string keys, as a lookup function.  `none` models a
missing key. -/
abbrev StrMap (β : Type) := String → Option β

/-- The empty map (`new Map()`). -/
def StrMap.empty {β : Type} : StrMap β := fun _ => none

/-- `map.set(k, v)`. -/
def StrMap.set {β : Type} (m : StrMap β) (k : String) (v : β) : StrMap β :=
  fun k' => if k' = k then some v else m k'

/-- `map.delete(k)`. -/
def StrMap.erase {β : Type} (m : StrMap β) (k : String) : StrMap β :=
  fun k' => if k' = k then none else m k'

/-- JS `a || b` on possibly-missing strings: the empty string is falsy, so
`a` is kept only when it is a present, non-empty string. -/
def jsOrS (a b : Option String) : Option String :=
  match a with
  | some s => if s = "" then b else some s
  | none => b

/-- JS truthiness of a possibly-missing string, keeping the value:
`none` for `undefined`/`null`/`""`, `some s` for a non-empty string. -/
def truthyS : Option String → Option String
  | some s => if s = "" then none else some s
  | none => none

/-! ## Sequence counters (Chunk Assembler / Session Registry)

Embedding of `meetingChunkCounters` and `nextChunkIndex`
(index.js lines 38-39, 68-72; websocketHandler.ts lines 72, 143-147). -/

/-- The per-meeting chunk counter map `meetingChunkCounters`. -/
abbrev CounterMap := StrMap Nat

/-- `nextChunkIndex(meetingId)` (index.js 68-72):
`const v = meetingChunkCounters.get(meetingId) || 0;`
`meetingChunkCounters.set(meetingId, v + 1); return v;`
The `|| 0` turns a missing entry into `0`; a stored `0` also reads as `0`,
which `Option.getD 0` reproduces exactly on naturals.  The whole operation
is synchronous (no `await`), hence a single atomic step of the event loop. -/
def nextChunkIndex (counters : CounterMap) (meetingId : String) : Nat × CounterMap :=
  let v := (counters meetingId).getD 0
  (v, StrMap.set counters meetingId (v + 1))

/-- Run a trace of transcript-handler invocations, each invoking
`nextChunkIndex` for its meeting id, in event-loop order.  Returns the
`(meeting_id, chunk_index)` assignments in order together with the final
counter map. -/
def runNext (counters : CounterMap) : List String → List (String × Nat) × CounterMap
  | [] => ([], counters)
  | id :: rest =>
    let r := nextChunkIndex counters id
    let rr := runNext r.2 rest
    ((id, r.1) :: rr.1, rr.2)

/-- The chunk indices assigned to a given meeting, in assignment order. -/
def indicesFor (assigned : List (String × Nat)) (m : String) : List Nat :=
  assigned.filterMap (fun p => if p.1 = m then some p.2 else none)

theorem indicesFor_cons_self (m : String) (v : Nat) (rest : List (String × Nat)) :
    indicesFor ((m, v) :: rest) m = v :: indicesFor rest m := by
  simp [indicesFor]

theorem indicesFor_cons_ne (id m : String) (h : id ≠ m) (v : Nat)
    (rest : List (String × Nat)) :
    indicesFor ((id, v) :: rest) m = indicesFor rest m := by
  simp [indicesFor, h]

theorem runNext_indicesFor (tr : List String) (counters : CounterMap) (m : String) :
    indicesFor (runNext counters tr).1 m
      = (List.range (tr.count m)).map (fun i => (counters m).getD 0 + i) := by
  induction tr generalizing counters with
  | nil => simp [runNext, indicesFor]
  | cons id rest ih =>
    have hstep : (runNext counters (id :: rest)).1
        = (id, (counters id).getD 0)
            :: (runNext (StrMap.set counters id ((counters id).getD 0 + 1)) rest).1 := by
      simp [runNext, nextChunkIndex]
    rw [hstep]
    by_cases h : id = m
    · subst h
      rw [indicesFor_cons_self, ih]
      have hset : StrMap.set counters id ((counters id).getD 0 + 1) id
          = some ((counters id).getD 0 + 1) := by simp [StrMap.set]
      rw [hset]
      have hcount : (id :: rest).count id = rest.count id + 1 := by
        simp
      rw [hcount, List.range_succ_eq_map, List.map_cons, List.map_map]
      simp only [Option.getD_some, Nat.add_zero]
      congr 1
      apply List.map_congr_left
      intro a _
      simp only [Function.comp_apply]
      omega
    · rw [indicesFor_cons_ne id m h, ih]
      have hset : StrMap.set counters id ((counters id).getD 0 + 1) m = counters m := by
        simp only [StrMap.set]
        rw [if_neg (fun hh => h hh.symm)]
      rw [hset]
      have hcount : (id :: rest).count m = rest.count m := by
        simp [List.count_cons, h]
      rw [hcount]

/-- Claim C1: for every meeting, assembling N fragments in any interleaving
of handler invocations assigns `chunk_index` values that are exactly
`{0, 1, ..., N-1}` in increasing order: starting from a fresh meeting (no
counter entry), the indices handed out for that meeting along any trace of
`nextChunkIndex` calls (interleaved arbitrarily with calls for other
meetings) are exactly `List.range N` where `N` is the number of calls for
that meeting — no duplicates, no gaps, never decreasing. -/
theorem nextChunkIndex_sequence_uniq (tr : List String) (m : String)
    (counters : CounterMap) (h : counters m = none) :
    indicesFor (runNext counters tr).1 m = List.range (tr.count m) := by
  have hmain := runNext_indicesFor tr counters m
  rw [h] at hmain
  simpa using hmain

/-- Witness for C1 at a concrete interleaved trace: meeting `"m1"`
receives indices `[0, 1, 2] = List.range 3` when three of the four
handler invocations are for `"m1"`. -/
theorem nextChunkIndex_sequence_uniq_witness :
    indicesFor (runNext StrMap.empty ["m1", "m2", "m1", "m1"]).1 "m1" = List.range 3 := by
  have h := nextChunkIndex_sequence_uniq ["m1", "m2", "m1", "m1"] "m1" StrMap.empty rfl
  simpa using h

/-! ## Write buffer (bulk indexing)

Embedding of `bulkBuffer`, `flushBulk` and `appendTranscriptToES`
(index.js lines 44-78; websocketHandler.ts lines 68-69, 120-155).
The `batches` field is a ghost log of the bulk writes issued, in issue
order; `inflight` counts bulk writes issued whose `await` has not yet
resolved.  The source checks `!es || !esConnected`; since `esConnected`
is only ever set to `true` after `es` has been created, the two collapse
into the single `esConnected` flag. -/

structure BufferState (α : Type) where
  bulkBuffer : List α
  esConnected : Bool
  batches : List (List α)
  inflight : Nat

/-- `flushBulk()` (index.js 49-66), up to its first suspension point: if
not connected or the buffer is empty, return without touching anything;
otherwise snapshot the buffer into `operations`, clear the buffer
("Clear immediately to avoid duplicates"), and issue the bulk write.  The
snapshot and clear happen with no `await` in between, so they form one
atomic event-loop step; the `await es.bulk` resolution is a separate
`complete` step of the trace semantics below.  Both the success and the
failure path of the `await` only log, so completion does not change the
modelled state beyond the in-flight count. -/
def flushBulk {α : Type} (s : BufferState α) : BufferState α :=
  if !s.esConnected || s.bulkBuffer.isEmpty then s
  else
    { bulkBuffer := []
      esConnected := s.esConnected
      batches := s.batches ++ [s.bulkBuffer]
      inflight := s.inflight + 1 }

/-- `appendTranscriptToES(doc)` (index.js 74-78): if not connected, drop;
otherwise push onto the buffer and, if the buffer length has reached the
batch size, flush immediately.  `BULK_BATCH_SIZE` (`ES_BULK_SIZE`,
default 50) is the `batchSize` parameter. -/
def appendTranscriptToES {α : Type} (batchSize : Nat) (s : BufferState α) (doc : α) :
    BufferState α :=
  if !s.esConnected then s
  else
    let s' : BufferState α :=
      { bulkBuffer := s.bulkBuffer ++ [doc]
        esConnected := s.esConnected
        batches := s.batches
        inflight := s.inflight }
    if batchSize ≤ s'.bulkBuffer.length then flushBulk s' else s'

/-- One event-loop step touching the buffer: a transcript handler
enqueues a document, the periodic timer (or a stop webhook) invokes
`flushBulk`, or an issued bulk write's `await` resolves. -/
inductive BufOp (α : Type) where
  | enq (d : α)
  | flushTimer
  | complete

def bufStep {α : Type} (batchSize : Nat) (s : BufferState α) : BufOp α → BufferState α
  | .enq d => appendTranscriptToES batchSize s d
  | .flushTimer => flushBulk s
  | .complete =>
    { bulkBuffer := s.bulkBuffer
      esConnected := s.esConnected
      batches := s.batches
      inflight := s.inflight - 1 }

/-- Run an arbitrary interleaving of buffer operations. -/
def bufRun {α : Type} (batchSize : Nat) (s : BufferState α) : List (BufOp α) → BufferState α
  | [] => s
  | op :: rest => bufRun batchSize (bufStep batchSize s op) rest

/-- The documents enqueued along a trace, in order. -/
def enqueuedDocs {α : Type} : List (BufOp α) → List α
  | [] => []
  | .enq d :: rest => d :: enqueuedDocs rest
  | .flushTimer :: rest => enqueuedDocs rest
  | .complete :: rest => enqueuedDocs rest

/-- The buffer state at process start with Elasticsearch connected:
empty queue, no writes issued. -/
def initBuffer (α : Type) : BufferState α := ⟨[], true, [], 0⟩

theorem enqueuedDocs_append {α : Type} (a b : List (BufOp α)) :
    enqueuedDocs (a ++ b) = enqueuedDocs a ++ enqueuedDocs b := by
  induction a with
  | nil => simp [enqueuedDocs]
  | cons op rest ih => cases op <;> simp [enqueuedDocs, ih]

theorem flushBulk_conservation {α : Type} (s : BufferState α) :
    (flushBulk s).esConnected = s.esConnected
    ∧ (flushBulk s).batches.flatten ++ (flushBulk s).bulkBuffer
        = s.batches.flatten ++ s.bulkBuffer := by
  by_cases h : (!s.esConnected || s.bulkBuffer.isEmpty) = true
  · simp [flushBulk, h]
  · simp [flushBulk, h]

theorem flushBulk_connected_empties {α : Type} (s : BufferState α)
    (h : s.esConnected = true) : (flushBulk s).bulkBuffer = [] := by
  by_cases hb : s.bulkBuffer.isEmpty
  · simp_all [flushBulk, List.isEmpty_iff]
  · simp [flushBulk, h, hb]

theorem appendTranscriptToES_conservation {α : Type} (batchSize : Nat)
    (s : BufferState α) (d : α) (h : s.esConnected = true) :
    (appendTranscriptToES batchSize s d).esConnected = true
    ∧ (appendTranscriptToES batchSize s d).batches.flatten
        ++ (appendTranscriptToES batchSize s d).bulkBuffer
      = s.batches.flatten ++ s.bulkBuffer ++ [d] := by
  unfold appendTranscriptToES
  simp only [h]
  by_cases hlen : batchSize ≤ s.bulkBuffer.length + 1
  · have hc := flushBulk_conservation
      (α := α) ⟨s.bulkBuffer ++ [d], s.esConnected, s.batches, s.inflight⟩
    simp only [h] at hc
    simp only [List.length_append, List.length_cons, List.length_nil]
    simp [hlen, hc.1, hc.2, h, List.append_assoc]
  · simp only [List.length_append, List.length_cons, List.length_nil]
    simp [hlen, h, List.append_assoc]

theorem bufRun_conservation {α : Type} (batchSize : Nat) (ops : List (BufOp α))
    (s : BufferState α) (h : s.esConnected = true) :
    (bufRun batchSize s ops).esConnected = true
    ∧ (bufRun batchSize s ops).batches.flatten ++ (bufRun batchSize s ops).bulkBuffer
        = s.batches.flatten ++ s.bulkBuffer ++ enqueuedDocs ops := by
  induction ops generalizing s with
  | nil => simp [bufRun, enqueuedDocs, h]
  | cons op rest ih =>
    cases op with
    | enq d =>
      have ha := appendTranscriptToES_conservation batchSize s d h
      have := ih (appendTranscriptToES batchSize s d) ha.1
      refine ⟨this.1, ?_⟩
      rw [bufRun, bufStep, this.2, ha.2]
      simp [enqueuedDocs, List.append_assoc]
    | flushTimer =>
      have hf := flushBulk_conservation s
      rw [h] at hf
      have := ih (flushBulk s) hf.1
      refine ⟨this.1, ?_⟩
      rw [bufRun, bufStep, this.2, hf.2]
      simp [enqueuedDocs]
    | complete =>
      have := ih ⟨s.bulkBuffer, s.esConnected, s.batches, s.inflight - 1⟩ h
      refine ⟨this.1, ?_⟩
      rw [bufRun, bufStep, this.2]
      simp [enqueuedDocs]

/-- Claim C2: `flushBulk` swaps the pending queue for an empty one before
the bulk write begins, so along every interleaving of enqueue, flush and
write-completion steps starting from a connected empty buffer, the issued
batches together with the still-pending queue are exactly the enqueued
documents, in order (no document dropped, none duplicated); and after one
final flush every enqueued document sits in exactly one issued batch. -/
theorem flushBulk_each_chunk_exactly_one_batch {α : Type} (batchSize : Nat)
    (ops : List (BufOp α)) :
    (bufRun batchSize (initBuffer α) ops).batches.flatten
        ++ (bufRun batchSize (initBuffer α) ops).bulkBuffer = enqueuedDocs ops
    ∧ (bufRun batchSize (initBuffer α) (ops ++ [BufOp.flushTimer])).batches.flatten
        = enqueuedDocs ops := by
  have h1 := bufRun_conservation batchSize ops (initBuffer α) rfl
  have h2 := bufRun_conservation batchSize (ops ++ [BufOp.flushTimer]) (initBuffer α) rfl
  refine ⟨by simpa [initBuffer] using h1.2, ?_⟩
  have hrun : bufRun batchSize (initBuffer α) (ops ++ [BufOp.flushTimer])
      = flushBulk (bufRun batchSize (initBuffer α) ops) := by
    clear h1 h2
    generalize initBuffer α = s
    induction ops generalizing s with
    | nil => simp [bufRun, bufStep]
    | cons op rest ih => simp [bufRun, ih]
  have hempty : (bufRun batchSize (initBuffer α) (ops ++ [BufOp.flushTimer])).bulkBuffer
      = [] := by
    rw [hrun]
    exact flushBulk_connected_empties _ h1.1
  have := h2.2
  rw [hempty] at this
  simpa [enqueuedDocs_append, enqueuedDocs, initBuffer] using this

/-- Counterexample to claim C3's in-flight bound: `flushBulk` has no
in-flight guard, so a timer flush whose `await es.bulk` has not yet
resolved can be followed, after a single enqueue, by a second flush that
issues a second bulk write — after the concrete interleaving
`enqueue 0; flush; enqueue 1; flush` two bulk writes are in flight at
once, refuting "at most one physical bulk-write call is in flight at any
time". -/
theorem two_bulk_writes_in_flight_cex :
    (bufRun 50 (initBuffer Nat)
        [BufOp.enq 0, BufOp.flushTimer, BufOp.enq 1, BufOp.flushTimer]).inflight = 2
    ∧ ¬ (bufRun 50 (initBuffer Nat)
        [BufOp.enq 0, BufOp.flushTimer, BufOp.enq 1, BufOp.flushTimer]).inflight ≤ 1 := by
  constructor
  · rfl
  · decide

/-- Claim C3, amended: two `flushBulk` calls in the same event-loop tick
(no enqueue or completion interleaved) issue exactly one bulk write for
the pending queue, because the first call empties the queue and the
second observes it empty — `flushBulk` is idempotent; one call issues at
most one write; and a call observing an empty queue issues zero network
calls and changes no state at all.  (The code does not, however, bound
the number of writes in flight across ticks: a flush issued while an
earlier write is still awaited adds a second in-flight write, see the
counterexample.) -/
theorem flushBulk_same_tick_single_write {α : Type} (s : BufferState α) :
    flushBulk (flushBulk s) = flushBulk s
    ∧ (flushBulk s).inflight ≤ s.inflight + 1
    ∧ (s.bulkBuffer = [] → flushBulk s = s) := by
  refine ⟨?_, ?_, ?_⟩
  · by_cases h : (!s.esConnected || s.bulkBuffer.isEmpty) = true
    · have hs : flushBulk s = s := by rw [flushBulk, if_pos h]
      rw [hs]
      exact hs
    · have hs : flushBulk s
          = ⟨[], s.esConnected, s.batches ++ [s.bulkBuffer], s.inflight + 1⟩ := by
        rw [flushBulk, if_neg h]
      rw [hs, flushBulk]
      simp
  · by_cases h : (!s.esConnected || s.bulkBuffer.isEmpty) = true
    · rw [flushBulk, if_pos h]; omega
    · rw [flushBulk, if_neg h]
  · intro hb
    rw [flushBulk]
    simp [hb]

/-- Witness for C3's amended theorem at a concrete state: on the freshly
initialized buffer the queue is empty, and a flush is a complete no-op. -/
theorem flushBulk_same_tick_single_write_witness :
    flushBulk (initBuffer Nat) = initBuffer Nat :=
  (flushBulk_same_tick_single_write (initBuffer Nat)).2.2 rfl

/-- Claim C6: `appendTranscriptToES` appends the document to the
in-memory queue and triggers an immediate flush if and only if the queue
length has reached the batch size: on a connected buffer the batch log
gains exactly the batch `queue ++ [doc]` when `batchSize ≤ |queue| + 1`
and is untouched otherwise; concretely with `batchSize = 2`, enqueuing
two documents issues exactly one bulk write `[c1, c2]` with no timer
step, while enqueuing one document issues no write and leaves the
document pending for the timer. -/
theorem appendTranscript_batch_trigger {α : Type} (batchSize : Nat)
    (s : BufferState α) (d c1 c2 : α) (h : s.esConnected = true) :
    (appendTranscriptToES batchSize s d).batches
      = (if batchSize ≤ s.bulkBuffer.length + 1
         then s.batches ++ [s.bulkBuffer ++ [d]] else s.batches)
    ∧ (bufRun 2 (initBuffer α) [BufOp.enq c1, BufOp.enq c2]).batches = [[c1, c2]]
    ∧ (bufRun 2 (initBuffer α) [BufOp.enq c1]).batches = []
    ∧ (bufRun 2 (initBuffer α) [BufOp.enq c1]).bulkBuffer = [c1] := by
  refine ⟨?_, ?_, ?_, ?_⟩
  · unfold appendTranscriptToES flushBulk
    by_cases hlen : batchSize ≤ s.bulkBuffer.length + 1
    · simp [h, hlen, List.isEmpty_iff]
    · simp [h, hlen]
  · simp [bufRun, bufStep, appendTranscriptToES, flushBulk, initBuffer]
  · simp [bufRun, bufStep, appendTranscriptToES, flushBulk, initBuffer]
  · simp [bufRun, bufStep, appendTranscriptToES, flushBulk, initBuffer]

/-- Witness for C6 at a concrete connected buffer with batch size 2. -/
theorem appendTranscript_batch_trigger_witness :
    (appendTranscriptToES 2 (initBuffer Nat) 7).batches
      = (if 2 ≤ (initBuffer Nat).bulkBuffer.length + 1
         then (initBuffer Nat).batches ++ [(initBuffer Nat).bulkBuffer ++ [7]]
         else (initBuffer Nat).batches)
    ∧ (bufRun 2 (initBuffer Nat) [BufOp.enq 8, BufOp.enq 9]).batches = [[8, 9]]
    ∧ (bufRun 2 (initBuffer Nat) [BufOp.enq 8]).batches = []
    ∧ (bufRun 2 (initBuffer Nat) [BufOp.enq 8]).bulkBuffer = [8] :=
  appendTranscript_batch_trigger 2 (initBuffer Nat) 7 8 9 rfl

/-! ## Chunk assembly (media transcript handler)

Embedding of the `msg_type 17` transcript branch of
`connectToMediaWebSocket` (index.js lines 168-192) and the document
construction (lines 178-188). -/

/-- The fields of the transcript message content the handler reads
(`msg.content || msg.payload || msg`, line 169).  `none` models a
`null`/`undefined`/absent field.  Media timestamps are JS numbers in
milliseconds, modelled as rationals. -/
structure MsgContent where
  user_name : Option String
  userName : Option String
  speaker : Option String
  data : Option String
  text : Option String
  transcript : Option String
  content : Option String
  start_ms : Option ℚ
  end_ms : Option ℚ

/-- JS `content.data ?? content.text ?? content.transcript ??
content.content` (line 171).  `??` is nullish coalescing: only
`null`/`undefined` fall through, an empty string is kept. -/
def textCandidate (c : MsgContent) : Option String :=
  ((c.data.or c.text).or c.transcript).or c.content

/-- One `"name":"value",` item of a JSON object rendering, empty when the
field is absent. -/
def renderField (nm : String) (v : Option String) : String :=
  match v with
  | some s => "\x22" ++ nm ++ "\x22:\x22" ++ s ++ "\x22,"
  | none => ""

/-- Models `JSON.stringify(content)` (the final fallback of line 171): a
JSON object rendering of the content record, brace-delimited.  The exact
field list is abbreviated to the string-valued fields; what the proofs
use is only that a JSON object string is non-empty (it starts with an
opening brace). -/
def jsonStringifyContent (c : MsgContent) : String :=
  String.mk ('\x7b' ::
    (renderField "user_name" c.user_name ++ renderField "data" c.data ++
     renderField "text" c.text ++ renderField "transcript" c.transcript ++
     renderField "content" c.content ++ "\x7d").data)

/-- Session metadata as stored by `storeMeetingMetadata`
(index.js 81-89): the stored record always carries a
`meeting_start_time` string; topic and host may be `null`. -/
structure Metadata where
  meeting_start_time : String
  meeting_topic : Option String
  host_id : Option String
  rtms_stream_id : Option String

/-- The argument object passed to `storeMeetingMetadata`.  A `none`
`meeting_start_time` models an absent key (the webhook handler always
passes `new Date().toISOString()`); for the other fields `none` models
`null`. -/
structure MetadataInput where
  meeting_start_time : Option String
  meeting_topic : Option String
  host_id : Option String
  rtms_stream_id : Option String

/-- `storeMeetingMetadata(meetingId, metadata)` (index.js 81-89,
websocketHandler.ts 157-165): overwrites the metadata entry.  The JS
defaults (`metadata.meeting_start_time || new Date().toISOString()` etc.)
are re-overridden by the `...metadata` spread, so a present key wins over
the default and an absent `meeting_start_time` key falls back to the
current time `nowIso`.  Note the function touches only `meetingMetadata`;
it never reads or writes `meetingChunkCounters`. -/
def storeMeetingMetadata (meta : StrMap Metadata) (meetingId : String)
    (md : MetadataInput) (nowIso : String) : StrMap Metadata :=
  StrMap.set meta meetingId
    { meeting_start_time := md.meeting_start_time.getD nowIso
      meeting_topic := md.meeting_topic
      host_id := md.host_id
      rtms_stream_id := md.rtms_stream_id }

/-- The `ta-da-latest` transcript chunk document built at lines 178-188. -/
structure TranscriptDoc where
  meeting_id : String
  chunk_index : Nat
  text : String
  start_time : Option ℚ
  end_time : Option ℚ
  speaker_id : String
  meeting_start_time : Option String
  received_at : String
  source : String

/-- The transcript branch (index.js 168-191): derive the speaker name by
nullish chaining (`?? 'Unknown'`), the text by nullish chaining with a
`JSON.stringify` fallback, take the next chunk index for the meeting,
convert millisecond timings to seconds (`start_ms / 1000.0` when
`start_ms != null`, else `null`), enrich from the meeting metadata
(`metadata.meeting_start_time || null`: a missing entry yields `{}`,
whose field reads as `undefined`, hence `null`), stamp `received_at`, and
tag the source (`process.env.SOURCE_NAME || 'zoom_agent'`, the empty
string being falsy). -/
def assembleTranscriptDoc (meetingUuid : String) (c : MsgContent)
    (meta : StrMap Metadata) (counters : CounterMap)
    (nowIso : String) (sourceEnv : Option String) : TranscriptDoc × CounterMap :=
  let r := nextChunkIndex counters meetingUuid
  ({ meeting_id := meetingUuid
     chunk_index := r.1
     text := (textCandidate c).getD (jsonStringifyContent c)
     start_time := match c.start_ms with
       | some v => some (v / 1000)
       | none => none
     end_time := match c.end_ms with
       | some v => some (v / 1000)
       | none => none
     speaker_id := ((c.user_name.or c.userName).or c.speaker).getD "Unknown"
     meeting_start_time := truthyS ((meta meetingUuid).map Metadata.meeting_start_time)
     received_at := nowIso
     source := (truthyS sourceEnv).getD "zoom_agent" },
   r.2)

/-! ## Webhook handler and session registry

Embedding of `handleWebhook` (index.js 269-321) together with the
registry maps and the grace-delay cleanup it schedules
(`setTimeout(..., 60000)`, lines 313-316). -/

/-- A `server_urls` value: either a signaling URL string or an object
(its key-value pairs in insertion order, as `Object.values` sees them). -/
inductive JsUrls where
  | str (s : String)
  | obj (fields : List (String × String))

/-- JS truthiness of a `server_urls` value: the empty string is falsy,
any object (even empty) is truthy. -/
def JsUrls.truthy : JsUrls → Bool
  | .str s => !(s == "")
  | .obj _ => true

/-- JS `a || b` on possibly-missing `server_urls` values. -/
def jsOrU (a b : Option JsUrls) : Option JsUrls :=
  match a with
  | some u => if u.truthy then some u else b
  | none => b

/-- Property access on the modelled object: first field with the key. -/
def lookupField (fields : List (String × String)) (k : String) : Option String :=
  (fields.find? (fun p => p.1 == k)).map Prod.snd

/-- Line 288: `typeof serverUrls === 'string' ? serverUrls :
(serverUrls.signaling || serverUrls.signaling_url ||
Object.values(serverUrls)[0])`. -/
def signalingUrlOf : JsUrls → Option String
  | .str s => some s
  | .obj fields =>
      jsOrS (lookupField fields "signaling")
        (jsOrS (lookupField fields "signaling_url") ((fields.map Prod.snd).head?))

/-- The webhook payload fields `handleWebhook` reads, each optionally
present.  `media_server_urls` models `payload.media_server?.server_urls`. -/
structure WebhookPayload where
  meeting_uuid : Option String
  meetingUUID : Option String
  rtms_stream_id : Option String
  rtmsStreamId : Option String
  server_urls : Option JsUrls
  serverUrls : Option JsUrls
  media_server_urls : Option JsUrls
  topic : Option String
  meeting_topic : Option String
  host_id : Option String
  hostId : Option String

/-- A payload with every field absent. -/
def WebhookPayload.empty : WebhookPayload :=
  ⟨none, none, none, none, none, none, none, none, none, none, none⟩

/-- A webhook request body: `{ event, payload }`.  `bodyAsPayload` is the
body itself viewed as a payload, used by the `body.payload || body`
fallback of line 272 (an object is always truthy, so a present `payload`
always wins). -/
structure WebhookBody where
  event : Option String
  payload : Option WebhookPayload
  bodyAsPayload : WebhookPayload

/-- Lines 276-293 of the `rtms_started` branch: extract
`meeting_uuid || meetingUUID`, `rtms_stream_id || rtmsStreamId` and
`server_urls || serverUrls || media_server?.server_urls`; if any is
falsy, or the resulting signaling URL is falsy, the event is dropped
(`none`). -/
def extractStarted (p : WebhookPayload) : Option (String × String × String) :=
  let meetingUuid := truthyS (jsOrS p.meeting_uuid p.meetingUUID)
  let streamId := truthyS (jsOrS p.rtms_stream_id p.rtmsStreamId)
  let serverUrls := jsOrU p.server_urls (jsOrU p.serverUrls p.media_server_urls)
  match meetingUuid, streamId, serverUrls with
  | some u, some sid, some urls =>
      if urls.truthy then
        match truthyS (signalingUrlOf urls) with
        | some surl => some (u, sid, surl)
        | none => none
      else none
  | _, _, _ => none

/-- The whole shared mutable state of the relay process: the two registry
maps, the scheduled grace-delay cleanups (meeting id and absolute fire
time in ms), and the write buffer. -/
structure ServerState where
  meetingChunkCounters : CounterMap
  meetingMetadata : StrMap Metadata
  pendingCleanups : List (String × Nat)
  buffer : BufferState TranscriptDoc

/-- The grace delay of the scheduled cleanup (line 316): 60000 ms. -/
def cleanupGraceMs : Nat := 60000

/-- `BULK_BATCH_SIZE` default (line 46). -/
def defaultBatchSize : Nat := 50

/-- The handler's HTTP response together with the connection attempt it
triggers: `connectAttempt = some (meetingUuid, rtmsStreamId,
signalingUrl)` models the `connectToSignalingWebSocket` call of
line 304. -/
structure WebhookResponse where
  status : Nat
  connectAttempt : Option (String × String × String)

/-- `handleWebhook(req, res)` (index.js 269-321).  `rtms_started`: on any
missing field the event is dropped and `200` returned; otherwise the
metadata is stored (counters untouched) and the signaling connect is
triggered.  `rtms_stopped`: the buffer is flushed and, when the payload
yields a truthy `meeting_uuid`, deletion of the meeting's metadata and
counter is scheduled `cleanupGraceMs` in the future (a falsy uuid would
make the scheduled `Map.delete(undefined)` a no-op on the string-keyed
maps, modelled by scheduling nothing).  Every path answers `200`. -/
def handleWebhook (now : Nat) (nowIso : String) (s : ServerState) (body : WebhookBody) :
    ServerState × WebhookResponse :=
  let payload := body.payload.getD body.bodyAsPayload
  if body.event = some "meeting.rtms_started" then
    match extractStarted payload with
    | none => (s, ⟨200, none⟩)
    | some (uuid, sid, surl) =>
        let md : MetadataInput :=
          { meeting_start_time := some nowIso
            meeting_topic := truthyS (jsOrS payload.topic payload.meeting_topic)
            host_id := truthyS (jsOrS payload.host_id payload.hostId)
            rtms_stream_id := some sid }
        ({ s with meetingMetadata := storeMeetingMetadata s.meetingMetadata uuid md nowIso },
         ⟨200, some (uuid, sid, surl)⟩)
  else if body.event = some "meeting.rtms_stopped" then
    let s' := { s with buffer := flushBulk s.buffer }
    match truthyS (jsOrS payload.meeting_uuid payload.meetingUUID) with
    | some uuid =>
        ({ s' with pendingCleanups := s'.pendingCleanups ++ [(uuid, now + cleanupGraceMs)] },
         ⟨200, none⟩)
    | none => (s', ⟨200, none⟩)
  else (s, ⟨200, none⟩)

/-- Fire every scheduled cleanup whose timer has elapsed by `now`: the
`setTimeout` callback of lines 313-316 deletes the meeting's metadata and
counter entries. -/
def fireDue (now : Nat) (s : ServerState) : ServerState :=
  let due := s.pendingCleanups.filter (fun p => p.2 ≤ now)
  { s with
    meetingMetadata := due.foldl (fun m p => StrMap.erase m p.1) s.meetingMetadata
    meetingChunkCounters := due.foldl (fun m p => StrMap.erase m p.1) s.meetingChunkCounters
    pendingCleanups := s.pendingCleanups.filter (fun p => now < p.2) }

/-- A `nextChunkIndex` call arriving at wall-clock time `now`: any
cleanup timer that has elapsed fires first (the event loop runs due
timers before later I/O callbacks), then the counter is read and
incremented. -/
def nextIndexAt (now : Nat) (m : String) (s : ServerState) : Nat × ServerState :=
  let s' := fireDue now s
  let r := nextChunkIndex s'.meetingChunkCounters m
  (r.1, { s' with meetingChunkCounters := r.2 })

/-- A stop webhook body for meeting `m`, as Zoom sends it. -/
def stoppedBody (m : String) : WebhookBody :=
  ⟨some "meeting.rtms_stopped",
   some { WebhookPayload.empty with meeting_uuid := some m },
   WebhookPayload.empty⟩

/-- The relay's state at process start: empty maps, nothing scheduled,
connected empty buffer. -/
def initialServerState : ServerState :=
  ⟨StrMap.empty, StrMap.empty, [], initBuffer TranscriptDoc⟩

/-- A started event whose payload lacks `rtms_stream_id`. -/
def missingFieldsBody : WebhookBody :=
  ⟨some "meeting.rtms_started",
   some { WebhookPayload.empty with
            meeting_uuid := some "m1"
            server_urls := some (JsUrls.str "wss://sig.example") },
   WebhookPayload.empty⟩

/-- A complete, valid started event for meeting `"m1"`. -/
def startedBodyM1 : WebhookBody :=
  ⟨some "meeting.rtms_started",
   some { WebhookPayload.empty with
            meeting_uuid := some "m1"
            rtms_stream_id := some "stream-1"
            server_urls := some (JsUrls.str "wss://sig.example") },
   WebhookPayload.empty⟩

/-- A state in which meeting `"m1"` already has three assembled chunks
(counter entry 3). -/
def stateWithCounter3 : ServerState :=
  ⟨StrMap.set StrMap.empty "m1" 3, StrMap.empty, [], initBuffer TranscriptDoc⟩

/-- Claim C7: `handleWebhook` answers HTTP 200 for every request body;
in particular, when an `rtms_started` payload fails field extraction
(missing `meeting_uuid`/`meetingUUID`, `rtms_stream_id`, or a usable
`server_urls` value), the event is dropped: no connection is attempted,
no state is touched, and the response is still 200. -/
theorem handleWebhook_always_200 (now : Nat) (nowIso : String) (s : ServerState)
    (body : WebhookBody) :
    (handleWebhook now nowIso s body).2.status = 200
    ∧ (body.event = some "meeting.rtms_started" →
        extractStarted (body.payload.getD body.bodyAsPayload) = none →
          (handleWebhook now nowIso s body).2.connectAttempt = none
          ∧ (handleWebhook now nowIso s body).1 = s) := by
  unfold handleWebhook
  by_cases h1 : body.event = some "meeting.rtms_started"
  · rw [if_pos h1]
    cases hext : extractStarted (body.payload.getD body.bodyAsPayload) with
    | none => simp [hext]
    | some t =>
      obtain ⟨u, sid, surl⟩ := t
      simp [hext]
  · rw [if_neg h1]
    by_cases h2 : body.event = some "meeting.rtms_stopped"
    · rw [if_pos h2]
      cases truthyS (jsOrS (body.payload.getD body.bodyAsPayload).meeting_uuid
          (body.payload.getD body.bodyAsPayload).meetingUUID) with
      | none => exact ⟨rfl, fun hs => absurd hs h1⟩
      | some uuid => exact ⟨rfl, fun hs => absurd hs h1⟩
    · rw [if_neg h2]
      exact ⟨rfl, fun hs => absurd hs h1⟩

/-- Witness for C7 at a concrete started event with a missing
`rtms_stream_id`: dropped, state untouched, 200 returned. -/
theorem handleWebhook_always_200_witness :
    (handleWebhook 0 "t0" initialServerState missingFieldsBody).2.status = 200
    ∧ (handleWebhook 0 "t0" initialServerState missingFieldsBody).2.connectAttempt = none
    ∧ (handleWebhook 0 "t0" initialServerState missingFieldsBody).1 = initialServerState := by
  have h := handleWebhook_always_200 0 "t0" initialServerState missingFieldsBody
  have h2 := h.2 rfl rfl
  exact ⟨h.1, h2.1, h2.2⟩

/-- Counterexample to claim C4: the session-started path never resets the
meeting's sequence counter.  In a state where meeting `"m1"` already has
counter entry 3, a fully valid `rtms_started` webhook is processed (the
connect is attempted, so the event is not dropped), yet the first
assemble afterwards returns `chunk_index` 3, not 0 as claimed. -/
theorem started_does_not_reset_counter_cex :
    (handleWebhook 0 "t0" stateWithCounter3 startedBodyM1).2.connectAttempt
        = some ("m1", "stream-1", "wss://sig.example")
    ∧ (nextIndexAt 0 "m1" (handleWebhook 0 "t0" stateWithCounter3 startedBodyM1).1).1 = 3
    ∧ ¬ (nextIndexAt 0 "m1" (handleWebhook 0 "t0" stateWithCounter3 startedBodyM1).1).1 = 0 := by
  refine ⟨rfl, rfl, by decide⟩

/-- Claim C4, amended: the session-started handling path creates or
overwrites the session metadata for the extracted meeting id but leaves
every sequence counter untouched; since a missing counter entry reads as
0, the first assemble after a start returns `chunk_index` 0 exactly for
meetings with no surviving counter entry — a meeting that already had
assembled chunks continues from its existing counter (see the
counterexample). -/
theorem handleWebhook_started_counters_unchanged (now : Nat) (nowIso : String)
    (s : ServerState) (body : WebhookBody)
    (h : body.event = some "meeting.rtms_started") :
    (handleWebhook now nowIso s body).1.meetingChunkCounters = s.meetingChunkCounters
    ∧ (∀ u sid surl,
        extractStarted (body.payload.getD body.bodyAsPayload) = some (u, sid, surl) →
          (handleWebhook now nowIso s body).1.meetingMetadata u
            = some { meeting_start_time := nowIso
                     meeting_topic := truthyS (jsOrS
                        (body.payload.getD body.bodyAsPayload).topic
                        (body.payload.getD body.bodyAsPayload).meeting_topic)
                     host_id := truthyS (jsOrS
                        (body.payload.getD body.bodyAsPayload).host_id
                        (body.payload.getD body.bodyAsPayload).hostId)
                     rtms_stream_id := some sid })
    ∧ (∀ m, s.meetingChunkCounters m = none →
        (nextChunkIndex (handleWebhook now nowIso s body).1.meetingChunkCounters m).1 = 0) := by
  unfold handleWebhook
  rw [if_pos h]
  cases hext : extractStarted (body.payload.getD body.bodyAsPayload) with
  | none =>
    refine ⟨rfl, ?_, ?_⟩
    · intro u sid surl habs
      exact absurd habs (by simp)
    · intro m hm
      simp [nextChunkIndex, hm]
  | some t =>
    obtain ⟨u0, sid0, surl0⟩ := t
    refine ⟨rfl, ?_, ?_⟩
    · intro u sid surl hsome
      have h3 : u0 = u ∧ sid0 = sid ∧ surl0 = surl := by
        simpa [Prod.ext_iff] using hsome
      obtain ⟨hu, hsid, hsurl⟩ := h3
      subst hu
      subst hsid
      subst hsurl
      simp [storeMeetingMetadata, StrMap.set]
    · intro m hm
      simp [nextChunkIndex, hm]

/-- Witness for C4's amended theorem at a concrete valid started event:
counters untouched, metadata stored, and a fresh meeting still gets
index 0. -/
theorem handleWebhook_started_counters_unchanged_witness :
    (handleWebhook 0 "t0" initialServerState startedBodyM1).1.meetingChunkCounters
        = initialServerState.meetingChunkCounters
    ∧ (handleWebhook 0 "t0" initialServerState startedBodyM1).1.meetingMetadata "m1"
        = some ⟨"t0", none, none, some "stream-1"⟩
    ∧ (nextChunkIndex
        (handleWebhook 0 "t0" initialServerState startedBodyM1).1.meetingChunkCounters
        "m1").1 = 0 := by
  have h := handleWebhook_started_counters_unchanged 0 "t0" initialServerState startedBodyM1 rfl
  exact ⟨h.1, h.2.1 "m1" "stream-1" "wss://sig.example" rfl, h.2.2 "m1" rfl⟩

theorem foldl_erase_apply {β : Type} (l : List (String × Nat)) (m0 : StrMap β)
    (k : String) :
    (l.foldl (fun acc p => StrMap.erase acc p.1) m0) k
      = if l.any (fun p => p.1 == k) then none else m0 k := by
  induction l generalizing m0 with
  | nil => simp
  | cons p rest ih =>
    rw [List.foldl_cons, ih, List.any_cons]
    by_cases h : p.1 = k
    · have hbeq : (p.1 == k) = true := by simp [h]
      have he : StrMap.erase m0 p.1 k = none := by simp [StrMap.erase, h.symm]
      rw [hbeq, Bool.true_or, he]
      simp
    · have hbeq : (p.1 == k) = false := by simp [h]
      have he : StrMap.erase m0 p.1 k = m0 k := by
        simp only [StrMap.erase]
        rw [if_neg (fun hh => h hh.symm)]
      rw [hbeq, Bool.false_or, he]

/-- Claim C5: after a stop webhook for meeting `m` at time `t0`, a
`nextChunkIndex` call arriving at any `t1` before the grace delay
(60000 ms) elapses still returns the next value `v` of the existing
counter and keeps incrementing it; at any `t2` at or past the grace
delay the scheduled cleanup has fired first, deleting the metadata and
counter entries, so the call returns 0 as for a fresh meeting. -/
theorem graceDelay_cleanup_behavior (s : ServerState) (m nowIso : String)
    (v t0 t1 t2 : Nat)
    (hm : m ≠ "")
    (hc : s.meetingChunkCounters m = some v)
    (hp : ∀ ft, (m, ft) ∉ s.pendingCleanups)
    (h1 : t1 < t0 + cleanupGraceMs) (h2 : t0 + cleanupGraceMs ≤ t2) :
    (nextIndexAt t1 m (handleWebhook t0 nowIso s (stoppedBody m)).1).1 = v
    ∧ (nextIndexAt t1 m (handleWebhook t0 nowIso s (stoppedBody m)).1).2.meetingChunkCounters m
        = some (v + 1)
    ∧ (nextIndexAt t2 m (handleWebhook t0 nowIso s (stoppedBody m)).1).1 = 0
    ∧ (fireDue t2 (handleWebhook t0 nowIso s (stoppedBody m)).1).meetingMetadata m = none := by
  have hs1 : (handleWebhook t0 nowIso s (stoppedBody m)).1
      = { s with buffer := flushBulk s.buffer
                 pendingCleanups := s.pendingCleanups ++ [(m, t0 + cleanupGraceMs)] } := by
    unfold handleWebhook stoppedBody
    simp [WebhookPayload.empty, jsOrS, truthyS, hm]
  rw [hs1]
  have hany1 : ((s.pendingCleanups ++ [(m, t0 + cleanupGraceMs)]).filter
      (fun p => decide (p.2 ≤ t1))).any (fun p => p.1 == m) = false := by
    rw [List.any_eq_false]
    intro p hpmem
    rw [List.mem_filter] at hpmem
    obtain ⟨hmem, hle⟩ := hpmem
    rw [List.mem_append] at hmem
    cases p with
    | mk a b =>
      simp only [beq_iff_eq]
      intro hak
      subst hak
      cases hmem with
      | inl hin => exact hp b hin
      | inr hin =>
        simp only [List.mem_singleton, Prod.mk.injEq] at hin
        have := hin.2
        subst this
        simp only [decide_eq_true_eq] at hle
        omega
  have hany2 : ((s.pendingCleanups ++ [(m, t0 + cleanupGraceMs)]).filter
      (fun p => decide (p.2 ≤ t2))).any (fun p => p.1 == m) = true := by
    rw [List.any_eq_true]
    refine ⟨(m, t0 + cleanupGraceMs), ?_, by simp⟩
    rw [List.mem_filter]
    exact ⟨by simp, by simpa using h2⟩
  have hcount1 : (fireDue t1
      { s with buffer := flushBulk s.buffer
               pendingCleanups := s.pendingCleanups ++ [(m, t0 + cleanupGraceMs)] }
      ).meetingChunkCounters m = some v := by
    simp only [fireDue]
    rw [foldl_erase_apply, hany1]
    simpa using hc
  have hcount2 : (fireDue t2
      { s with buffer := flushBulk s.buffer
               pendingCleanups := s.pendingCleanups ++ [(m, t0 + cleanupGraceMs)] }
      ).meetingChunkCounters m = none := by
    simp only [fireDue]
    rw [foldl_erase_apply, hany2]
    simp
  have hmeta2 : (fireDue t2
      { s with buffer := flushBulk s.buffer
               pendingCleanups := s.pendingCleanups ++ [(m, t0 + cleanupGraceMs)] }
      ).meetingMetadata m = none := by
    simp only [fireDue]
    rw [foldl_erase_apply, hany2]
    simp
  refine ⟨?_, ?_, ?_, hmeta2⟩
  · simp [nextIndexAt, nextChunkIndex, hcount1]
  · simp [nextIndexAt, nextChunkIndex, hcount1, StrMap.set]
  · simp [nextIndexAt, nextChunkIndex, hcount2]

/-- A concrete metadata record for the C5 witness. -/
def metaM1 : Metadata := ⟨"2025-01-01T00:00:00Z", none, none, some "stream-1"⟩

/-- Witness for C5 at concrete inputs: counter 2 for `"m1"`, stop at
t=100; a call at t=50000 returns 2 and stores 3, a call at t=60100
returns 0 and the metadata is gone. -/
theorem graceDelay_cleanup_behavior_witness :
    (nextIndexAt 50000 "m1" (handleWebhook 100 "t0"
        ⟨StrMap.set StrMap.empty "m1" 2, StrMap.set StrMap.empty "m1" metaM1, [],
         initBuffer TranscriptDoc⟩ (stoppedBody "m1")).1).1 = 2
    ∧ (nextIndexAt 50000 "m1" (handleWebhook 100 "t0"
        ⟨StrMap.set StrMap.empty "m1" 2, StrMap.set StrMap.empty "m1" metaM1, [],
         initBuffer TranscriptDoc⟩ (stoppedBody "m1")).1).2.meetingChunkCounters "m1"
        = some 3
    ∧ (nextIndexAt 60100 "m1" (handleWebhook 100 "t0"
        ⟨StrMap.set StrMap.empty "m1" 2, StrMap.set StrMap.empty "m1" metaM1, [],
         initBuffer TranscriptDoc⟩ (stoppedBody "m1")).1).1 = 0
    ∧ (fireDue 60100 (handleWebhook 100 "t0"
        ⟨StrMap.set StrMap.empty "m1" 2, StrMap.set StrMap.empty "m1" metaM1, [],
         initBuffer TranscriptDoc⟩ (stoppedBody "m1")).1).meetingMetadata "m1" = none := by
  have h := graceDelay_cleanup_behavior
    ⟨StrMap.set StrMap.empty "m1" 2, StrMap.set StrMap.empty "m1" metaM1, [],
     initBuffer TranscriptDoc⟩ "m1" "t0" 2 100 50000 60100
    (by decide) rfl (by simp) (by decide) (by decide)
  exact h

theorem jsonStringifyContent_ne_empty (c : MsgContent) : jsonStringifyContent c ≠ "" := by
  intro h
  have hd : (jsonStringifyContent c).data = ("" : String).data := congrArg String.data h
  rw [jsonStringifyContent] at hd
  exact List.noConfusion hd

/-- Counterexample to claim C9: the text fallback chain uses nullish
coalescing, which keeps a present empty string, so a fragment whose
`data` field is `""` produces a chunk whose `text` is the empty string —
the "non-empty text" invariant does not hold for every produced chunk. -/
theorem transcript_text_can_be_empty_cex :
    (assembleTranscriptDoc "m1"
        ⟨some "prof", none, none, some "", none, none, none, none, none⟩
        StrMap.empty StrMap.empty "2025-01-01T00:00:00Z" none).1.text = "" := rfl

/-- Claim C9, amended: the chunk's `text` is the first non-nullish of the
fragment's `data`/`text`/`transcript`/`content` fields, falling back to a
JSON serialization of the content (which is never empty); hence the
produced chunk's `text` is empty exactly when the first present candidate
field is the empty string — non-empty whenever the selected field is
non-empty or no candidate field is present at all. -/
theorem transcript_text_empty_iff_candidate_empty (meetingUuid : String)
    (c : MsgContent) (meta : StrMap Metadata) (counters : CounterMap)
    (nowIso : String) (sourceEnv : Option String) :
    (assembleTranscriptDoc meetingUuid c meta counters nowIso sourceEnv).1.text = ""
      ↔ textCandidate c = some "" := by
  cases hcand : textCandidate c with
  | none =>
    simp only [assembleTranscriptDoc, hcand, Option.getD_none]
    constructor
    · intro h
      exact absurd h (jsonStringifyContent_ne_empty c)
    · intro h
      exact absurd h (by simp)
  | some s =>
    simp [assembleTranscriptDoc, hcand]

/-- Claim C10: the assembled chunk's timing fields are in seconds,
derived from the millisecond transport fields: `start_time` is
`start_ms / 1000` when `start_ms` is present and `null` otherwise, and
likewise for `end_time`. -/
theorem transcript_time_ms_to_seconds (meetingUuid : String) (c : MsgContent)
    (meta : StrMap Metadata) (counters : CounterMap) (nowIso : String)
    (sourceEnv : Option String) :
    (assembleTranscriptDoc meetingUuid c meta counters nowIso sourceEnv).1.start_time
        = c.start_ms.map (fun v => v / 1000)
    ∧ (assembleTranscriptDoc meetingUuid c meta counters nowIso sourceEnv).1.end_time
        = c.end_ms.map (fun v => v / 1000) := by
  constructor
  · cases hs : c.start_ms <;> simp [assembleTranscriptDoc, hs]
  · cases hs : c.end_ms <;> simp [assembleTranscriptDoc, hs]

/-! ## Fan-out broadcaster

Embedding of `broadcastToClients` and the observer bookkeeping of
`setupWebSocketServer` (websocketHandler.ts lines 171-222).  The
`wsConnections` `Set` iterates in insertion order, modelled as a list of
distinct socket identities.  `ws.send` without a callback does not throw
on an `OPEN` socket: per the `ws` API a transmission failure surfaces as
the socket's `error` event, and the handler registered at lines 188-191
removes exactly that socket from the set; sockets whose `readyState` is
not `OPEN` are skipped by the guard at line 218. -/

/-- One connected dashboard observer: its identity, whether its
`readyState` is `OPEN`, and whether sending on it fails. -/
structure Observer where
  oid : Nat
  isOpen : Bool
  sendFails : Bool

/-- The observer set `wsConnections`, in insertion order. -/
structure FanoutState where
  wsConnections : List Observer

/-- The `forEach` loop of `broadcastToClients`: walk the observers in
order; an `OPEN` observer either receives the message or, if its channel
fails, raises an error event; a non-open observer is skipped.  Returns
the `(observer id, message)` deliveries and the observers whose error
event fired, both in iteration order. -/
def sendToAll (msg : String) : List Observer → List (Nat × String) × List Observer
  | [] => ([], [])
  | o :: rest =>
    let r := sendToAll msg rest
    if o.isOpen then
      if o.sendFails then (r.1, o :: r.2) else ((o.oid, msg) :: r.1, r.2)
    else r

/-- The `ws.on('error', ...)` handler: `this.wsConnections.delete(ws)`,
removal by socket identity. -/
def removeObserver (s : FanoutState) (o : Observer) : FanoutState :=
  ⟨s.wsConnections.filter (fun x => x.oid != o.oid)⟩

/-- `broadcastToClients(message)` followed by the error-event handlers of
the observers whose send failed: the deliveries of the loop, and the
observer set after the failing observers have been removed. -/
def broadcastToClients (msg : String) (s : FanoutState) :
    FanoutState × List (Nat × String) :=
  let r := sendToAll msg s.wsConnections
  (r.2.foldl removeObserver s, r.1)

theorem sendToAll_delivered (msg : String) (l : List Observer) :
    (sendToAll msg l).1
      = (l.filter (fun o => o.isOpen && !o.sendFails)).map (fun o => (o.oid, msg)) := by
  induction l with
  | nil => simp [sendToAll]
  | cons o rest ih =>
    cases ho : o.isOpen <;> cases hf : o.sendFails <;>
      simp [sendToAll, ho, hf, ih]

theorem sendToAll_errored (msg : String) (l : List Observer) :
    (sendToAll msg l).2 = l.filter (fun o => o.isOpen && o.sendFails) := by
  induction l with
  | nil => simp [sendToAll]
  | cons o rest ih =>
    cases ho : o.isOpen <;> cases hf : o.sendFails <;>
      simp [sendToAll, ho, hf, ih]

theorem foldl_removeObserver_conns (errs : List Observer) (s : FanoutState) :
    (errs.foldl removeObserver s).wsConnections
      = s.wsConnections.filter (fun x => !(errs.any (fun e => x.oid == e.oid))) := by
  induction errs generalizing s with
  | nil => simp
  | cons e rest ih =>
    rw [List.foldl_cons, ih]
    simp only [removeObserver]
    rw [List.filter_filter]
    apply List.filter_congr
    intro x hx
    simp only [List.any_cons, Bool.not_or, bne]
    rw [Bool.and_comm]

/-- Claim C8: fan-out isolation.  `publish` delivers the event to every
currently-open observer whose channel works, in set order; an observer
whose send fails (or which is not open) never aborts delivery to the
others, and the subsequent error handling removes exactly the failing
observers from the set — with three observers of which one fails, the
other two receive the event and only the failing one is removed. -/
theorem broadcastToClients_fanout_isolation (msg : String) (s : FanoutState)
    (hnodup : (s.wsConnections.map Observer.oid).Nodup) :
    (broadcastToClients msg s).2
      = (s.wsConnections.filter (fun o => o.isOpen && !o.sendFails)).map
          (fun o => (o.oid, msg))
    ∧ (broadcastToClients msg s).1.wsConnections
      = s.wsConnections.filter (fun o => !(o.isOpen && o.sendFails)) := by
  constructor
  · simp [broadcastToClients, sendToAll_delivered]
  · simp only [broadcastToClients]
    rw [sendToAll_errored, foldl_removeObserver_conns]
    apply List.filter_congr
    intro x hx
    congr 1
    by_cases hxf : (x.isOpen && x.sendFails) = true
    · rw [hxf, List.any_eq_true]
      exact ⟨x, List.mem_filter.mpr ⟨hx, hxf⟩, by simp⟩
    · have hxf' : (x.isOpen && x.sendFails) = false := by
        cases h : (x.isOpen && x.sendFails)
        · rfl
        · exact absurd h hxf
      rw [hxf', List.any_eq_false]
      intro e hemem
      rw [List.mem_filter] at hemem
      simp only [beq_iff_eq]
      intro hoid
      have hexx : x = e :=
        List.inj_on_of_nodup_map hnodup hx hemem.1 hoid
      rw [← hexx] at hemem
      exact absurd hemem.2 hxf

/-- Three concrete observers: 1 and 3 healthy and open, 2 open but its
send fails. -/
def obsA : Observer := ⟨1, true, false⟩

def obsB : Observer := ⟨2, true, true⟩

def obsC : Observer := ⟨3, true, false⟩

def threeObservers : FanoutState := ⟨[obsA, obsB, obsC]⟩

/-- Witness for C8 at the three-observer scenario: observers 1 and 3
receive the event, and only observer 2 is removed. -/
theorem broadcastToClients_fanout_isolation_witness :
    (broadcastToClients "ev" threeObservers).2 = [(1, "ev"), (3, "ev")]
    ∧ (broadcastToClients "ev" threeObservers).1.wsConnections = [obsA, obsC] := by
  have h := broadcastToClients_fanout_isolation "ev" threeObservers (by decide)
  exact ⟨h.1.trans rfl, h.2.trans rfl⟩

end TAda
